import Mathlib

/-!
Verification of the `pci_id` crate's `pci.ids` parser.

The Rust sources are shallowly embedded below:

* `src/vendor.rs`       → `Vendor`, `Device`, `SubDevice`
* `src/class.rs`        → `Class`, `SubClass`, `Interface`, `Class.new`
* `src/device_class.rs` → `DeviceClass`, `DeviceClass.tryFrom`,
                          `DeviceClass.toByte`, `DeviceClass.display`
* `src/pci_ids.rs`      → `PciIds`, `processLine`, `parseAux`, `finalFlush`,
                          `parseLines`, `parsePciIdList`, `parseVendors`,
                          `parseClasses`

Strings are embedded as `List Char`; machine integers (`u8`, `u16`) as `Nat`
with explicit bounds enforced by the hex decoder (`fromStrRadix`), which
mirrors `u16::from_str_radix(_, 16)` / `u8::from_str_radix(_, 16)` including
the leading-`+` acceptance, the empty-string failure and the overflow
failure.  Rust panics (`Option::unwrap` on `None`, `Result::unwrap` on an
unlisted `DeviceClass` byte) are modelled as distinguished `PErr`
constructors, separate from the `ParseIntError` value that `parse_lines`
propagates with `?` (constructor `PErr.invalidInt`); `PErr.isReported`
records which of the two kinds crosses `parse_lines`' `Result` type.
-/

namespace PciId

/-- Embedded Rust `&str`: a list of characters. -/
abbrev Str := List Char

/-- Whitespace as relevant to `str::trim` on `pci.ids` content
(space, tab, newline, carriage return). -/
def isWS (c : Char) : Bool :=
  c = ' ' || c = '\t' || c = '\n' || c = '\r'

/-- `char::to_digit(16)`: numeric value of a hex digit, written over code
points (`0`–`9` are 48–57, `a`–`f` are 97–102, `A`–`F` are 65–70). -/
def hexDigitVal (c : Char) : Option Nat :=
  let n := c.toNat
  if 48 ≤ n ∧ n ≤ 57 then some (n - 48)
  else if 97 ≤ n ∧ n ≤ 102 then some (n - 87)
  else if 65 ≤ n ∧ n ≤ 70 then some (n - 55)
  else none

/-- `char::is_digit(16)`, which Rust implements as
`to_digit(16).is_some()`. -/
def isHexDigitCh (c : Char) : Bool :=
  (hexDigitVal c).isSome

/-- Digit-accumulation loop of `from_str_radix` with radix 16 for a `w`-bit
unsigned target: fails on a non-hex character and on overflow past `2 ^ w`. -/
def parseHexAux (w : Nat) : Str → Nat → Option Nat
  | [], acc => some acc
  | c :: cs, acc =>
    match hexDigitVal c with
    | none => none
    | some d => if acc * 16 + d < 2 ^ w then parseHexAux w cs (acc * 16 + d) else none

/-- `uN::from_str_radix(s, 16)` for the `w`-bit unsigned integer type:
an optional leading `+` is stripped, the remainder must be a non-empty
string of hex digits whose value fits in `w` bits. -/
def fromStrRadix (w : Nat) (s : Str) : Option Nat :=
  let s' := match s with
    | '+' :: r => r
    | r => r
  if s' = [] then none else parseHexAux w s' 0

/-- `str::split_once("  ")`: split at the first occurrence of two consecutive
spaces, dropping the separator. -/
def splitTwoSpace : Str → Option (Str × Str)
  | [] => none
  | c :: rest =>
    if c = ' ' ∧ rest.head? = some ' ' then some ([], rest.tail)
    else (splitTwoSpace rest).map (fun p => (c :: p.1, p.2))

/-- `str::split_once(" ")`: split at the first space, dropping it. -/
def splitOnceSpace : Str → Option (Str × Str)
  | [] => none
  | c :: rest =>
    if c = ' ' then some ([], rest)
    else (splitOnceSpace rest).map (fun p => (c :: p.1, p.2))

/-- `str::trim`: drop leading and trailing whitespace. -/
def trim (s : Str) : Str :=
  ((s.dropWhile isWS).reverse.dropWhile isWS).reverse

/-- `line.starts_with('#')`. -/
def startsWithHash : Str → Bool
  | [] => false
  | c :: _ => c = '#'

/-- The line's first character is the literal `C` (the condition of the
`else if char == 'C'` branch of `parse_lines`). -/
def startsWithC : Str → Bool
  | [] => false
  | c :: _ => c = 'C'

/-- The line's first character satisfies the depth-0 vendor-line test of
`parse_lines`: a hex digit other than `C`. -/
def isVendorStart : Str → Bool
  | [] => false
  | c :: _ => if c = 'C' then false else isHexDigitCh c

/-- `vendor.rs`: `SubDevice`. -/
structure SubDevice where
  subvendor_id : Nat
  subdevice_id : Nat
  name : Str
deriving DecidableEq, Repr

/-- `vendor.rs`: `Device`. -/
structure Device where
  id : Nat
  name : Str
  subdevices : List SubDevice
deriving DecidableEq, Repr

/-- `vendor.rs`: `Vendor`. -/
structure Vendor where
  id : Nat
  name : Str
  devices : List Device
deriving DecidableEq, Repr

/-- `device_class.rs`: the `DeviceClass` enum. -/
inductive DeviceClass where
  | Unclassified                      -- ID: 00
  | MassStorageController             -- ID: 01
  | NetworkController                 -- ID: 02
  | DisplayController                 -- ID: 03
  | MultimediaController              -- ID: 04
  | MemoryController                  -- ID: 05
  | Bridge                            -- ID: 06
  | CommunicationController           -- ID: 07
  | GenericSystemPeripheral           -- ID: 08
  | InputDeviceController             -- ID: 09
  | DockingStation                    -- ID: 0a
  | Processor                         -- ID: 0b
  | SerialBusController               -- ID: 0c
  | WirelessController                -- ID: 0d
  | IntelligentController             -- ID: 0e
  | SatelliteCommunicationsController -- ID: 0f
  | EncryptionController              -- ID: 10
  | SignalProcessingController        -- ID: 11
  | ProcessingAccelerator             -- ID: 12
  | NonEssentialInstrumentation       -- ID: 13
  | Coprocessor                       -- ID: 40
  | Unassigned                        -- ID: ff
deriving DecidableEq, Repr, Fintype

/-- `device_class.rs`: `impl TryFrom<u8> for DeviceClass` (failure = `Err`). -/
def DeviceClass.tryFrom (byte : Nat) : Option DeviceClass :=
  match byte with
  | 0x00 => some .Unclassified
  | 0x01 => some .MassStorageController
  | 0x02 => some .NetworkController
  | 0x03 => some .DisplayController
  | 0x04 => some .MultimediaController
  | 0x05 => some .MemoryController
  | 0x06 => some .Bridge
  | 0x07 => some .CommunicationController
  | 0x08 => some .GenericSystemPeripheral
  | 0x09 => some .InputDeviceController
  | 0x0a => some .DockingStation
  | 0x0b => some .Processor
  | 0x0c => some .SerialBusController
  | 0x0d => some .WirelessController
  | 0x0e => some .IntelligentController
  | 0x0f => some .SatelliteCommunicationsController
  | 0x10 => some .EncryptionController
  | 0x11 => some .SignalProcessingController
  | 0x12 => some .ProcessingAccelerator
  | 0x13 => some .NonEssentialInstrumentation
  | 0x40 => some .Coprocessor
  | 0xff => some .Unassigned
  | _ => none

/-- `device_class.rs`: `impl From<DeviceClass> for u8`. -/
def DeviceClass.toByte : DeviceClass → Nat
  | .Unclassified => 0x00
  | .MassStorageController => 0x01
  | .NetworkController => 0x02
  | .DisplayController => 0x03
  | .MultimediaController => 0x04
  | .MemoryController => 0x05
  | .Bridge => 0x06
  | .CommunicationController => 0x07
  | .GenericSystemPeripheral => 0x08
  | .InputDeviceController => 0x09
  | .DockingStation => 0x0a
  | .Processor => 0x0b
  | .SerialBusController => 0x0c
  | .WirelessController => 0x0d
  | .IntelligentController => 0x0e
  | .SatelliteCommunicationsController => 0x0f
  | .EncryptionController => 0x10
  | .SignalProcessingController => 0x11
  | .ProcessingAccelerator => 0x12
  | .NonEssentialInstrumentation => 0x13
  | .Coprocessor => 0x40
  | .Unassigned => 0xff

/-- `device_class.rs`: `impl fmt::Display for DeviceClass` — the fixed
byte-to-name table. -/
def DeviceClass.display : DeviceClass → Str
  | .Unclassified => ("Unclassified").data
  | .MassStorageController => ("Mass Storage Controller").data
  | .NetworkController => ("Network Controller").data
  | .DisplayController => ("Display Controller").data
  | .MultimediaController => ("Multimedia Controller").data
  | .MemoryController => ("Memory Controller").data
  | .Bridge => ("Bridge").data
  | .CommunicationController => ("Communication Controller").data
  | .GenericSystemPeripheral => ("Generic System Peripheral").data
  | .InputDeviceController => ("Input Device Controller").data
  | .DockingStation => ("Docking Station").data
  | .Processor => ("Processor").data
  | .SerialBusController => ("Serial Bus Controller").data
  | .WirelessController => ("Wireless Controller").data
  | .IntelligentController => ("Intelligent Controller").data
  | .SatelliteCommunicationsController => ("Satellite Communications Controller").data
  | .EncryptionController => ("Encryption Controller").data
  | .SignalProcessingController => ("Signal Processing Controller").data
  | .ProcessingAccelerator => ("Processing Accelerators").data
  | .NonEssentialInstrumentation => ("Non Essential Instrumentation").data
  | .Coprocessor => ("Coprocessor").data
  | .Unassigned => ("Unassigned").data

/-- `class.rs`: `Interface`. -/
structure Interface where
  id : Nat
  name : Str
deriving DecidableEq, Repr

/-- `class.rs`: `SubClass`. -/
structure SubClass where
  id : Nat
  name : Str
  interfaces : List Interface
deriving DecidableEq, Repr

/-- `class.rs`: `Class`.  The source field `class` is a Lean keyword, so it
is named `cls` here; note it holds only the `DeviceClass` value — `Class`
stores no name text. -/
structure Class where
  cls : DeviceClass
  subclasses : List SubClass
deriving DecidableEq, Repr

/-- `class.rs`: `Class::new` — `DeviceClass::try_from(id).unwrap()`; the
panic on an unlisted byte is modelled as `none`. -/
def Class.new (id : Nat) : Option Class :=
  (DeviceClass.tryFrom id).map (fun dc => { cls := dc, subclasses := [] })

/-- `pci_ids.rs`: the `PciIds` struct. -/
structure PciIds where
  vendors : List Vendor
  classes : List Class
deriving DecidableEq, Repr

/-- Failure modes of `parse_lines` and of the entry points that `unwrap`
its result.  `invalidInt` is the `ParseIntError` propagated with `?`; every
other constructor is a Rust panic:

* `panicNoSeparator` — `line.split_once("  ").unwrap()` on a line with no
  double space,
* `panicNoSpaceInId` — `id.split_once(" ").unwrap()` on a subdevice or
  `C`-line id field with no space,
* `panicBadClassByte` — the `unwrap` inside `Class::new` on a byte with no
  `DeviceClass`,
* `panicImpossible` — the `chars.next().unwrap()` reads of the second
  character (unreachable once the `"  "` split has succeeded). -/
inductive PErr where
  | panicNoSeparator
  | panicNoSpaceInId
  | panicBadClassByte
  | panicImpossible
  | invalidInt
deriving DecidableEq, Repr

/-- Whether the failure is reported through `parse_lines`' return type
(`Result<(), ParseIntError>`) rather than being a panic. -/
def PErr.isReported : PErr → Bool
  | .invalidInt => true
  | _ => false

/-- The scanning state of `parse_lines`: the two catalog lists being built
(`self.vendors` / `self.classes` in Rust) plus the four scratch lists and
the section flag. -/
structure PState where
  vendors : List Vendor
  classes : List Class
  devices : List Device
  subdevices : List SubDevice
  subclasses : List SubClass
  interfaces : List Interface
  inClass : Bool
deriving DecidableEq, Repr

/-- `if let Some(x) = list.last_mut() { ... }`: apply `f` to the last
element if the list is non-empty. -/
def modifyLast (f : α → α) : List α → List α
  | [] => []
  | [a] => [f a]
  | a :: b :: rest => a :: modifyLast f (b :: rest)

/-- One iteration of the `for line in data.lines()` loop of `parse_lines`
(lines 86–164 of `pci_ids.rs`).  Returns `.ok none` for the `break` taken on
a `C` line when `skip_classes` is set, `.ok (some st)` to continue with
state `st`, and `.error e` when the iteration would return `Err` or panic. -/
def processLine (skipVendors skipClasses : Bool) (line : Str) (st : PState) :
    Except PErr (Option PState) :=
  if startsWithHash line = true ∨ line = [] then .ok (some st)
  else
    match line.head? with
    | none => .error .panicImpossible
    | some ch =>
      match splitTwoSpace line with
      | none => .error .panicNoSeparator
      | some (idf, rawName) =>
        if skipVendors = false ∧ isHexDigitCh ch = true ∧ ch ≠ 'C' ∧ st.inClass = false then
          match fromStrRadix 16 (trim idf) with
          | none => .error .invalidInt
          | some id => .ok (some { st with
              vendors := modifyLast (fun v => { v with devices := st.devices }) st.vendors
                ++ [{ id := id, name := trim rawName, devices := [] }],
              devices := [] })
        else if skipVendors = false ∧ ch = '\t' ∧ st.inClass = false then
          match line.tail.head? with
          | none => .error .panicImpossible
          | some c2 =>
            if c2 ≠ '\t' then
              match fromStrRadix 16 (trim idf) with
              | none => .error .invalidInt
              | some id => .ok (some { st with
                  devices := modifyLast (fun d => { d with subdevices := st.subdevices }) st.devices
                    ++ [{ id := id, name := trim rawName, subdevices := [] }],
                  subdevices := [] })
            else
              match splitOnceSpace idf with
              | none => .error .panicNoSpaceInId
              | some (a, b) =>
                match fromStrRadix 16 (trim a) with
                | none => .error .invalidInt
                | some n1 =>
                  match fromStrRadix 16 (trim b) with
                  | none => .error .invalidInt
                  | some n2 => .ok (some { st with
                      subdevices := st.subdevices
                        ++ [{ subvendor_id := n1, subdevice_id := n2, name := trim rawName }] })
        else if ch = 'C' then
          if skipClasses = true then .ok none
          else
            match splitOnceSpace idf with
            | none => .error .panicNoSpaceInId
            | some (_, idr) =>
              match fromStrRadix 8 (trim idr) with
              | none => .error .invalidInt
              | some id =>
                match Class.new id with
                | none => .error .panicBadClassByte
                | some c => .ok (some { st with
                    inClass := true,
                    classes := modifyLast (fun cl => { cl with subclasses := st.subclasses }) st.classes
                      ++ [c],
                    subclasses := [] })
        else if skipClasses = false ∧ st.inClass = true then
          match fromStrRadix 8 (trim idf) with
          | none => .error .invalidInt
          | some id =>
            match line.tail.head? with
            | none => .error .panicImpossible
            | some c2 =>
              if c2 ≠ '\t' then
                .ok (some { st with
                    subclasses := modifyLast (fun s => { s with interfaces := st.interfaces }) st.subclasses
                      ++ [{ id := id, name := trim rawName, interfaces := [] }],
                    interfaces := [] })
              else
                .ok (some { st with
                    interfaces := st.interfaces ++ [{ id := id, name := trim rawName }] })
        else .ok (some st)

/-- The scanning loop of `parse_lines`: fold `processLine` over the lines,
stopping with the current state on `break` and aborting on failure. -/
def parseAux (skipVendors skipClasses : Bool) : List Str → PState → Except PErr PState
  | [], st => .ok st
  | l :: ls, st =>
    match processLine skipVendors skipClasses l st with
    | .error e => .error e
    | .ok none => .ok st
    | .ok (some st') => parseAux skipVendors skipClasses ls st'

/-- The end-of-loop flush of `parse_lines` (lines 166–178 of `pci_ids.rs`):
attach the still-open scratch lists bottom-up and return the catalog. -/
def finalFlush (st : PState) : PciIds :=
  let devices := modifyLast (fun d => { d with subdevices := st.subdevices }) st.devices
  let vendors := modifyLast (fun v => { v with devices := devices }) st.vendors
  let subclasses := modifyLast (fun s => { s with interfaces := st.interfaces }) st.subclasses
  let classes := modifyLast (fun c => { c with subclasses := subclasses }) st.classes
  { vendors := vendors, classes := classes }

/-- The state at the top of `parse_lines`: `self`'s lists, empty scratch
lists, `in_class_section = false`. -/
def initState (self : PciIds) : PState :=
  { vendors := self.vendors, classes := self.classes,
    devices := [], subdevices := [], subclasses := [], interfaces := [],
    inClass := false }

/-- `PciIds::parse_lines` on an already-split list of lines, starting from
the lists held in `self`. -/
def parseLines (input : List Str) (skipVendors skipClasses : Bool) (self : PciIds) :
    Except PErr PciIds :=
  (parseAux skipVendors skipClasses input (initState self)).map finalFlush

/-- `PciIds::parse_pci_id_list` (modulo file IO): parse with both skip
flags clear into a fresh `PciIds`.  The Rust entry point `unwrap`s the
`parse_lines` result, so a `.error` outcome is a panic observed by the
caller and no catalog is produced. -/
def parsePciIdList (input : List Str) : Except PErr PciIds :=
  parseLines input false false { vendors := [], classes := [] }

/-- `PciIds::parse_vendors` (modulo file IO): `parse_lines(data, false, true)`. -/
def parseVendors (input : List Str) (self : PciIds) : Except PErr PciIds :=
  parseLines input false true self

/-- `PciIds::parse_classes` (modulo file IO): `parse_lines(data, true, false)`. -/
def parseClasses (input : List Str) (self : PciIds) : Except PErr PciIds :=
  parseLines input true false self

/-- Following the spec's words, for comparison with the code: "the class
section begins at the first line whose first non-whitespace character is
the literal `C` followed by a space".  This predicate marks such a line. -/
def specClassTransitionLine (l : Str) : Bool :=
  match l.dropWhile isWS with
  | 'C' :: ' ' :: _ => true
  | _ => false

/-! ### Helper lemmas about the string primitives -/

theorem ne_space_of_not_WS {c : Char} (h : isWS c = false) : c ≠ ' ' := by
  rintro rfl; exact absurd h (by decide)

theorem isHexDigitCh_not_WS {c : Char} (h : isHexDigitCh c = true) : isWS c = false := by
  have h1 : c ≠ ' ' := by rintro rfl; exact absurd h (by decide)
  have h2 : c ≠ '\t' := by rintro rfl; exact absurd h (by decide)
  have h3 : c ≠ '\n' := by rintro rfl; exact absurd h (by decide)
  have h4 : c ≠ '\r' := by rintro rfl; exact absurd h (by decide)
  simp [isWS, h1, h2, h3, h4]

theorem dropWhile_eq_self_of {p : Char → Bool} {l : Str} (h : ∀ c ∈ l, p c = false) :
    l.dropWhile p = l := by
  cases l with
  | nil => rfl
  | cons a as =>
    rw [List.dropWhile_cons, if_neg]
    simp [h a (List.mem_cons_self a as)]

theorem trim_nonWS {s : Str} (h : ∀ c ∈ s, isWS c = false) : trim s = s := by
  unfold trim
  rw [dropWhile_eq_self_of h, dropWhile_eq_self_of, List.reverse_reverse]
  intro c hc
  exact h c (List.mem_reverse.mp hc)

theorem trim_tab1 {s : Str} (h : ∀ c ∈ s, isWS c = false) :
    trim ('\t' :: s) = s := by
  unfold trim
  rw [List.dropWhile_cons, if_pos (by decide), dropWhile_eq_self_of h,
    dropWhile_eq_self_of, List.reverse_reverse]
  intro c hc
  exact h c (List.mem_reverse.mp hc)

theorem trim_tab2 {s : Str} (h : ∀ c ∈ s, isWS c = false) :
    trim ('\t' :: '\t' :: s) = s := by
  unfold trim
  rw [List.dropWhile_cons, if_pos (by decide), List.dropWhile_cons, if_pos (by decide),
    dropWhile_eq_self_of h, dropWhile_eq_self_of, List.reverse_reverse]
  intro c hc
  exact h c (List.mem_reverse.mp hc)

theorem splitTwoSpace_exact (xs r : Str) (h : ∀ c ∈ xs, c ≠ ' ') :
    splitTwoSpace (xs ++ ' ' :: ' ' :: r) = some (xs, r) := by
  induction xs with
  | nil => simp [splitTwoSpace]
  | cons c cs ih =>
    have hc : c ≠ ' ' := h c (List.mem_cons_self c cs)
    rw [List.cons_append, splitTwoSpace, if_neg (fun hh => hc hh.1),
      ih (fun d hd => h d (List.mem_cons_of_mem c hd))]
    rfl

theorem splitTwoSpace_mid (xs ys r : Str) (hxs : ∀ c ∈ xs, c ≠ ' ')
    (hys : ∀ c ∈ ys, c ≠ ' ') (hys0 : ys ≠ []) :
    splitTwoSpace (xs ++ ' ' :: (ys ++ ' ' :: ' ' :: r)) = some (xs ++ ' ' :: ys, r) := by
  induction xs with
  | nil =>
    rw [List.nil_append, splitTwoSpace, if_neg, splitTwoSpace_exact ys r hys]
    · rfl
    · rintro ⟨-, hh⟩
      cases ys with
      | nil => exact hys0 rfl
      | cons y ys' =>
        rw [List.cons_append, List.head?_cons] at hh
        exact hys y (List.mem_cons_self y ys') (Option.some_injective _ hh)
  | cons c cs ih =>
    have hc : c ≠ ' ' := hxs c (List.mem_cons_self c cs)
    rw [List.cons_append, splitTwoSpace, if_neg (fun hh => hc hh.1),
      ih (fun d hd => hxs d (List.mem_cons_of_mem c hd))]
    rfl

theorem splitOnceSpace_exact (xs ys : Str) (h : ∀ c ∈ xs, c ≠ ' ') :
    splitOnceSpace (xs ++ ' ' :: ys) = some (xs, ys) := by
  induction xs with
  | nil => simp [splitOnceSpace]
  | cons c cs ih =>
    have hc : c ≠ ' ' := h c (List.mem_cons_self c cs)
    rw [List.cons_append, splitOnceSpace, if_neg hc,
      ih (fun d hd => h d (List.mem_cons_of_mem c hd))]
    rfl

theorem modifyLast_concat (f : α → α) (xs : List α) (x : α) :
    modifyLast f (xs ++ [x]) = xs ++ [f x] := by
  induction xs with
  | nil => rfl
  | cons y ys ih =>
    cases ys with
    | nil => rfl
    | cons z zs =>
      rw [show ((y :: z :: zs) ++ [x] : List α) = y :: ((z :: zs) ++ [x]) from rfl]
      rw [show modifyLast f (y :: ((z :: zs) ++ [x])) = y :: modifyLast f ((z :: zs) ++ [x]) from rfl]
      rw [ih]
      rfl

theorem modifyLast_ne_nil (f : α → α) {xs : List α} (h : xs ≠ []) :
    modifyLast f xs ≠ [] := by
  cases xs with
  | nil => exact absurd rfl h
  | cons a l => cases l <;> simp [modifyLast]

theorem modifyLast_length (f : α → α) (xs : List α) :
    (modifyLast f xs).length = xs.length := by
  induction xs with
  | nil => rfl
  | cons a l ih =>
    cases l with
    | nil => rfl
    | cons b bs =>
      rw [show modifyLast f (a :: b :: bs) = a :: modifyLast f (b :: bs) from rfl]
      simpa using ih

theorem startsWithC_head {l : Str} {c : Char} (h : l.head? = some c) (hc : c ≠ 'C') :
    startsWithC l = false := by
  cases l with
  | nil => simp at h
  | cons a t =>
    simp only [List.head?_cons, Option.some.injEq] at h
    subst h
    simp [startsWithC, hc]

theorem startsWithC_shape {l : Str} (h : startsWithC l = true) : ∃ t, l = 'C' :: t := by
  cases l with
  | nil => simp [startsWithC] at h
  | cons a t =>
    simp only [startsWithC, decide_eq_true_eq] at h
    exact ⟨t, by rw [h]⟩

theorem isVendorStart_shape {l : Str} (h : isVendorStart l = true) :
    ∃ c t, l = c :: t ∧ isHexDigitCh c = true ∧ c ≠ 'C' := by
  cases l with
  | nil => simp [isVendorStart] at h
  | cons a t =>
    by_cases hC : a = 'C'
    · subst hC; simp [isVendorStart] at h
    · rw [isVendorStart, if_neg hC] at h
      exact ⟨a, t, rfl, h, hC⟩

/-! ### How `processLine` advances on each well-formed line shape -/

theorem processLine_classLine (sv : Bool) (idr nm : Str) (st : PState) (n : Nat) (c : Class)
    (h1 : ∀ a ∈ idr, isWS a = false) (h2 : idr ≠ [])
    (h3 : fromStrRadix 8 idr = some n) (h4 : Class.new n = some c) :
    processLine sv false ('C' :: ' ' :: (idr ++ ' ' :: ' ' :: nm)) st =
      .ok (some { st with
        inClass := true,
        classes := modifyLast (fun cl => { cl with subclasses := st.subclasses }) st.classes ++ [c],
        subclasses := [] }) := by
  have hsp : splitTwoSpace ('C' :: ' ' :: (idr ++ ' ' :: ' ' :: nm)) = some ('C' :: ' ' :: idr, nm) := by
    have h5 := splitTwoSpace_mid ['C'] idr nm
      (by intro a ha; simp at ha; subst ha; decide)
      (fun a ha => ne_space_of_not_WS (h1 a ha)) h2
    simpa using h5
  have hso : splitOnceSpace ('C' :: ' ' :: idr) = some (['C'], idr) := by
    have h6 := splitOnceSpace_exact ['C'] idr (by intro a ha; simp at ha; subst ha; decide)
    simpa using h6
  simp only [processLine, hsp, hso, List.head?_cons, trim_nonWS h1, h3, h4,
    startsWithHash]
  rw [if_neg (by simp [show ('C' : Char) ≠ '#' from by decide]),
    if_neg (fun hh => hh.2.2.1 rfl),
    if_neg (fun hh => absurd hh.2.1 (by decide))]
  simp

theorem processLine_vendorLine (sc : Bool) (ch : Char) (idt nm : Str) (st : PState) (n : Nat)
    (hch : isHexDigitCh ch = true) (hC : ch ≠ 'C')
    (hhex : ∀ a ∈ idt, isHexDigitCh a = true)
    (hin : st.inClass = false)
    (hn : fromStrRadix 16 (ch :: idt) = some n) :
    processLine false sc ((ch :: idt) ++ ' ' :: ' ' :: nm) st =
      .ok (some { st with
        vendors := modifyLast (fun v => { v with devices := st.devices }) st.vendors
          ++ [{ id := n, name := trim nm, devices := [] }],
        devices := [] }) := by
  have hA : ∀ a ∈ ch :: idt, isWS a = false := by
    intro a ha
    rcases List.mem_cons.mp ha with rfl | ha'
    · exact isHexDigitCh_not_WS hch
    · exact isHexDigitCh_not_WS (hhex a ha')
  have hsp : splitTwoSpace (ch :: (idt ++ ' ' :: ' ' :: nm)) = some (ch :: idt, nm) := by
    have h5 := splitTwoSpace_exact (ch :: idt) nm (fun a ha => ne_space_of_not_WS (hA a ha))
    simpa using h5
  have hhash : ch ≠ '#' := by rintro rfl; exact absurd hch (by decide)
  simp [processLine, hsp, trim_nonWS hA, hn, hch, hC, hin, startsWithHash, hhash]

theorem processLine_deviceLine (sc : Bool) (ch : Char) (idt nm : Str) (st : PState) (n : Nat)
    (hch : isHexDigitCh ch = true)
    (hhex : ∀ a ∈ idt, isHexDigitCh a = true)
    (hin : st.inClass = false)
    (hn : fromStrRadix 16 (ch :: idt) = some n) :
    processLine false sc ('\t' :: ((ch :: idt) ++ ' ' :: ' ' :: nm)) st =
      .ok (some { st with
        devices := modifyLast (fun d => { d with subdevices := st.subdevices }) st.devices
          ++ [{ id := n, name := trim nm, subdevices := [] }],
        subdevices := [] }) := by
  have hA : ∀ a ∈ ch :: idt, isWS a = false := by
    intro a ha
    rcases List.mem_cons.mp ha with rfl | ha'
    · exact isHexDigitCh_not_WS hch
    · exact isHexDigitCh_not_WS (hhex a ha')
  have hsp : splitTwoSpace ('\t' :: ch :: (idt ++ ' ' :: ' ' :: nm)) = some ('\t' :: ch :: idt, nm) := by
    have h5 : splitTwoSpace (('\t' :: ch :: idt) ++ ' ' :: ' ' :: nm) = some ('\t' :: ch :: idt, nm) := by
      refine splitTwoSpace_exact _ nm ?_
      intro a ha
      rcases List.mem_cons.mp ha with rfl | ha'
      · decide
      · exact ne_space_of_not_WS (hA a ha')
    simpa using h5
  have htab : ch ≠ '\t' := by rintro rfl; exact absurd hch (by decide)
  simp [processLine, hsp, trim_tab1 hA, hn, hin, htab, startsWithHash,
    show ('\t' : Char) ≠ '#' from by decide, show isHexDigitCh '\t' = false from by decide,
    show ('\t' : Char) ≠ 'C' from by decide]

theorem processLine_subdevLine (sc : Bool) (a b nm : Str) (st : PState) (n1 n2 : Nat)
    (ha : ∀ x ∈ a, isHexDigitCh x = true)
    (hb : ∀ x ∈ b, isHexDigitCh x = true) (hb0 : b ≠ [])
    (hin : st.inClass = false)
    (hn1 : fromStrRadix 16 a = some n1) (hn2 : fromStrRadix 16 b = some n2) :
    processLine false sc ('\t' :: '\t' :: (a ++ ' ' :: (b ++ ' ' :: ' ' :: nm))) st =
      .ok (some { st with
        subdevices := st.subdevices
          ++ [{ subvendor_id := n1, subdevice_id := n2, name := trim nm }] }) := by
  have hA : ∀ x ∈ a, isWS x = false := fun x hx => isHexDigitCh_not_WS (ha x hx)
  have hB : ∀ x ∈ b, isWS x = false := fun x hx => isHexDigitCh_not_WS (hb x hx)
  have hxs : ∀ x ∈ ('\t' :: '\t' :: a : Str), x ≠ ' ' := by
    intro x hx
    rcases List.mem_cons.mp hx with rfl | hx'
    · decide
    · rcases List.mem_cons.mp hx' with rfl | hx''
      · decide
      · exact ne_space_of_not_WS (hA x hx'')
  have hsp : splitTwoSpace ('\t' :: '\t' :: (a ++ ' ' :: (b ++ ' ' :: ' ' :: nm))) =
      some ('\t' :: '\t' :: (a ++ ' ' :: b), nm) := by
    have h5 := splitTwoSpace_mid ('\t' :: '\t' :: a) b nm hxs
      (fun x hx => ne_space_of_not_WS (hB x hx)) hb0
    simpa using h5
  have hso : splitOnceSpace ('\t' :: '\t' :: (a ++ ' ' :: b)) = some ('\t' :: '\t' :: a, b) := by
    have h5 := splitOnceSpace_exact ('\t' :: '\t' :: a) b hxs
    simpa using h5
  simp [processLine, hsp, hso, trim_tab2 hA, trim_nonWS hB, hn1, hn2, hin, startsWithHash,
    show ('\t' : Char) ≠ '#' from by decide, show isHexDigitCh '\t' = false from by decide,
    show ('\t' : Char) ≠ 'C' from by decide]

theorem processLine_subclassLine (sv : Bool) (ch : Char) (idt nm : Str) (st : PState) (n : Nat)
    (hch : isHexDigitCh ch = true)
    (hhex : ∀ x ∈ idt, isHexDigitCh x = true)
    (hin : st.inClass = true)
    (hn : fromStrRadix 8 (ch :: idt) = some n) :
    processLine sv false ('\t' :: ((ch :: idt) ++ ' ' :: ' ' :: nm)) st =
      .ok (some { st with
        subclasses := modifyLast (fun s => { s with interfaces := st.interfaces }) st.subclasses
          ++ [{ id := n, name := trim nm, interfaces := [] }],
        interfaces := [] }) := by
  have hA : ∀ a ∈ ch :: idt, isWS a = false := by
    intro a ha
    rcases List.mem_cons.mp ha with rfl | ha'
    · exact isHexDigitCh_not_WS hch
    · exact isHexDigitCh_not_WS (hhex a ha')
  have hsp : splitTwoSpace ('\t' :: ch :: (idt ++ ' ' :: ' ' :: nm)) = some ('\t' :: ch :: idt, nm) := by
    have h5 : splitTwoSpace (('\t' :: ch :: idt) ++ ' ' :: ' ' :: nm) = some ('\t' :: ch :: idt, nm) := by
      refine splitTwoSpace_exact _ nm ?_
      intro x hx
      rcases List.mem_cons.mp hx with rfl | hx'
      · decide
      · exact ne_space_of_not_WS (hA x hx')
    simpa using h5
  have htab : ch ≠ '\t' := by rintro rfl; exact absurd hch (by decide)
  simp [processLine, hsp, trim_tab1 hA, hn, hin, htab, startsWithHash,
    show ('\t' : Char) ≠ '#' from by decide, show isHexDigitCh '\t' = false from by decide,
    show ('\t' : Char) ≠ 'C' from by decide]

theorem processLine_ifaceLine (sv : Bool) (idh nm : Str) (st : PState) (n : Nat)
    (hhex : ∀ x ∈ idh, isHexDigitCh x = true)
    (hin : st.inClass = true)
    (hn : fromStrRadix 8 idh = some n) :
    processLine sv false ('\t' :: '\t' :: (idh ++ ' ' :: ' ' :: nm)) st =
      .ok (some { st with
        interfaces := st.interfaces ++ [{ id := n, name := trim nm }] }) := by
  have hA : ∀ x ∈ idh, isWS x = false := fun x hx => isHexDigitCh_not_WS (hhex x hx)
  have hsp : splitTwoSpace ('\t' :: '\t' :: (idh ++ ' ' :: ' ' :: nm)) =
      some ('\t' :: '\t' :: idh, nm) := by
    have h5 : splitTwoSpace (('\t' :: '\t' :: idh) ++ ' ' :: ' ' :: nm) =
        some ('\t' :: '\t' :: idh, nm) := by
      refine splitTwoSpace_exact _ nm ?_
      intro x hx
      rcases List.mem_cons.mp hx with rfl | hx'
      · decide
      · rcases List.mem_cons.mp hx' with rfl | hx''
        · decide
        · exact ne_space_of_not_WS (hA x hx'')
    simpa using h5
  simp [processLine, hsp, trim_tab2 hA, hn, hin, startsWithHash,
    show ('\t' : Char) ≠ '#' from by decide, show isHexDigitCh '\t' = false from by decide,
    show ('\t' : Char) ≠ 'C' from by decide]

/-! ### Inversion and invariant lemmas for `processLine` and `parseAux` -/

theorem processLine_no_break {sv : Bool} {l : Str} {st : PState}
    (h : processLine sv false l st = .ok none) : False := by
  unfold processLine at h
  repeat' split at h
  all_goals simp_all

theorem startsWithC_headC {l : Str} (h : l.head? = some 'C') : startsWithC l = true := by
  cases l with
  | nil => simp at h
  | cons a t =>
    simp only [List.head?_cons, Option.some.injEq] at h
    simp [startsWithC, h]

theorem processLine_noC_no_break {sv sc : Bool} {l : Str} {st : PState}
    (hl : startsWithC l = false) (h : processLine sv sc l st = .ok none) : False := by
  unfold processLine at h
  repeat' split at h
  all_goals simp_all [startsWithC_headC]

theorem processLine_vendors_mono {sv sc : Bool} {l : Str} {st st' : PState}
    (h : processLine sv sc l st = .ok (some st')) :
    st.vendors.length ≤ st'.vendors.length := by
  unfold processLine at h
  repeat' split at h
  all_goals cases h
  all_goals simp [modifyLast_length]

theorem processLine_classes_mono {sv sc : Bool} {l : Str} {st st' : PState}
    (h : processLine sv sc l st = .ok (some st')) :
    st.classes.length ≤ st'.classes.length := by
  unfold processLine at h
  repeat' split at h
  all_goals cases h
  all_goals simp [modifyLast_length]

theorem processLine_skipV_vendors {sc : Bool} {l : Str} {st st' : PState}
    (h : processLine true sc l st = .ok (some st')) : st'.vendors = st.vendors := by
  unfold processLine at h
  repeat' split at h
  all_goals cases h
  all_goals simp_all

theorem processLine_skipC_classes {sv : Bool} {l : Str} {st st' : PState}
    (h : processLine sv true l st = .ok (some st')) : st'.classes = st.classes := by
  unfold processLine at h
  repeat' split at h
  all_goals cases h
  all_goals simp_all

theorem processLine_not_C_inClass {sv sc : Bool} {l : Str} {st st' : PState}
    (hl : startsWithC l = false) (hin : st.inClass = false)
    (h : processLine sv sc l st = .ok (some st')) : st'.inClass = false := by
  unfold processLine at h
  repeat' split at h
  all_goals cases h
  all_goals simp_all [startsWithC_headC]

theorem processLine_CStart_classes {sv : Bool} {t : Str} {st st' : PState}
    (h : processLine sv false ('C' :: t) st = .ok (some st')) : st'.classes ≠ [] := by
  simp only [processLine, List.head?_cons] at h
  repeat' split at h
  all_goals cases h
  all_goals simp_all [startsWithHash, show ('C' : Char) ≠ '#' from by decide,
    show ('C' : Char) ≠ '\t' from by decide]

theorem processLine_vendorStart_vendors {sc : Bool} {c : Char} {t : Str} {st st' : PState}
    (h : processLine false sc (c :: t) st = .ok (some st'))
    (hc1 : isHexDigitCh c = true) (hc2 : c ≠ 'C') (hin : st.inClass = false) :
    st'.vendors ≠ [] := by
  have hhash : c ≠ '#' := by rintro rfl; exact absurd hc1 (by decide)
  have htab : c ≠ '\t' := by rintro rfl; exact absurd hc1 (by decide)
  simp only [processLine, List.head?_cons] at h
  repeat' split at h
  all_goals cases h
  all_goals simp_all [startsWithHash]

theorem parseAux_append {sv : Bool} {xs ys : List Str} {st stm : PState}
    (h : parseAux sv false xs st = .ok stm) :
    parseAux sv false (xs ++ ys) st = parseAux sv false ys stm := by
  induction xs generalizing st with
  | nil => cases h; rfl
  | cons l ls ih =>
    rw [List.cons_append]
    simp only [parseAux] at h ⊢
    cases hp : processLine sv false l st with
    | error e => rw [hp] at h; cases h
    | ok o =>
      cases o with
      | none => exact (processLine_no_break hp).elim
      | some st1 =>
        rw [hp] at h
        exact ih h

theorem parseAux_error_cons {sv sc : Bool} {l : Str} {ys : List Str} {st : PState} {e : PErr}
    (h : processLine sv sc l st = .error e) :
    parseAux sv sc (l :: ys) st = .error e := by
  simp only [parseAux, h]

theorem parseAux_vendors_ne_nil {sv sc : Bool} {input : List Str} {st st' : PState}
    (h : parseAux sv sc input st = .ok st') (h0 : st.vendors ≠ []) : st'.vendors ≠ [] := by
  induction input generalizing st with
  | nil => cases h; exact h0
  | cons l ls ih =>
    simp only [parseAux] at h
    cases hp : processLine sv sc l st with
    | error e => rw [hp] at h; cases h
    | ok o =>
      cases o with
      | none => rw [hp] at h; cases h; exact h0
      | some st1 =>
        rw [hp] at h
        refine ih h ?_
        have hm := processLine_vendors_mono hp
        intro hz
        rw [hz] at hm
        simp at hm
        exact h0 hm

theorem parseAux_classes_ne_nil {sv sc : Bool} {input : List Str} {st st' : PState}
    (h : parseAux sv sc input st = .ok st') (h0 : st.classes ≠ []) : st'.classes ≠ [] := by
  induction input generalizing st with
  | nil => cases h; exact h0
  | cons l ls ih =>
    simp only [parseAux] at h
    cases hp : processLine sv sc l st with
    | error e => rw [hp] at h; cases h
    | ok o =>
      cases o with
      | none => rw [hp] at h; cases h; exact h0
      | some st1 =>
        rw [hp] at h
        refine ih h ?_
        have hm := processLine_classes_mono hp
        intro hz
        rw [hz] at hm
        simp at hm
        exact h0 hm

theorem parseAux_skipV_vendors {sc : Bool} {input : List Str} {st st' : PState}
    (h : parseAux true sc input st = .ok st') : st'.vendors = st.vendors := by
  induction input generalizing st with
  | nil => cases h; rfl
  | cons l ls ih =>
    simp only [parseAux] at h
    cases hp : processLine true sc l st with
    | error e => rw [hp] at h; cases h
    | ok o =>
      cases o with
      | none => rw [hp] at h; cases h; rfl
      | some st1 =>
        rw [hp] at h
        exact (ih h).trans (processLine_skipV_vendors hp)

theorem parseAux_skipC_classes {sv : Bool} {input : List Str} {st st' : PState}
    (h : parseAux sv true input st = .ok st') : st'.classes = st.classes := by
  induction input generalizing st with
  | nil => cases h; rfl
  | cons l ls ih =>
    simp only [parseAux] at h
    cases hp : processLine sv true l st with
    | error e => rw [hp] at h; cases h
    | ok o =>
      cases o with
      | none => rw [hp] at h; cases h; rfl
      | some st1 =>
        rw [hp] at h
        exact (ih h).trans (processLine_skipC_classes hp)

theorem parseAux_C_classes {sv : Bool} {input : List Str} {st st' : PState}
    (h : parseAux sv false input st = .ok st')
    (hC : ∃ l ∈ input, startsWithC l = true) : st'.classes ≠ [] := by
  induction input generalizing st with
  | nil => simp at hC
  | cons l ls ih =>
    simp only [parseAux] at h
    cases hp : processLine sv false l st with
    | error e => rw [hp] at h; cases h
    | ok o =>
      cases o with
      | none => exact (processLine_no_break hp).elim
      | some st1 =>
        rw [hp] at h
        rcases hC with ⟨m, hm, hmC⟩
        rcases List.mem_cons.mp hm with rfl | hm'
        · rcases startsWithC_shape hmC with ⟨t, rfl⟩
          exact parseAux_classes_ne_nil h (processLine_CStart_classes hp)
        · exact ih h ⟨m, hm', hmC⟩

theorem parseAux_inClass_false {sv sc : Bool} {input : List Str} {st st' : PState}
    (hall : ∀ l ∈ input, startsWithC l = false)
    (h : parseAux sv sc input st = .ok st') (hin : st.inClass = false) :
    st'.inClass = false := by
  induction input generalizing st with
  | nil => cases h; exact hin
  | cons l ls ih =>
    simp only [parseAux] at h
    cases hp : processLine sv sc l st with
    | error e => rw [hp] at h; cases h
    | ok o =>
      cases o with
      | none => rw [hp] at h; cases h; exact hin
      | some st1 =>
        rw [hp] at h
        exact ih (fun m hm => hall m (List.mem_cons_of_mem l hm)) h
          (processLine_not_C_inClass (hall l (List.mem_cons_self l ls)) hin hp)

theorem parseAux_append_noC {sv : Bool} {xs ys : List Str} {st : PState}
    (hxs : ∀ l ∈ xs, startsWithC l = false) :
    (∃ stm, parseAux sv true xs st = .ok stm ∧
      parseAux sv true (xs ++ ys) st = parseAux sv true ys stm) ∨
    (∃ e, parseAux sv true xs st = .error e ∧
      parseAux sv true (xs ++ ys) st = .error e) := by
  induction xs generalizing st with
  | nil => exact Or.inl ⟨st, rfl, rfl⟩
  | cons l ls ih =>
    cases hp : processLine sv true l st with
    | error e =>
      exact Or.inr ⟨e, by simp only [parseAux, hp], by simp only [List.cons_append, parseAux, hp]⟩
    | ok o =>
      cases o with
      | none => exact (processLine_noC_no_break (hxs l (List.mem_cons_self l ls)) hp).elim
      | some st1 =>
        have e1 : parseAux sv true (l :: ls) st = parseAux sv true ls st1 := by
          simp only [parseAux, hp]
        have e2 : parseAux sv true ((l :: ls) ++ ys) st = parseAux sv true (ls ++ ys) st1 := by
          simp only [List.cons_append, parseAux, hp, List.append_eq]
        rcases @ih st1 (fun m hm => hxs m (List.mem_cons_of_mem l hm)) with
          ⟨stm, hm1, hm2⟩ | ⟨e, he1, he2⟩
        · exact Or.inl ⟨stm, e1.trans hm1, e2.trans hm2⟩
        · exact Or.inr ⟨e, e1.trans he1, e2.trans he2⟩

theorem parseAux_vendor_push {pre : List Str} {st stm : PState}
    (hnoC : ∀ l ∈ pre, startsWithC l = false)
    (hv : ∃ l ∈ pre, isVendorStart l = true)
    (hin : st.inClass = false)
    (h : parseAux false true pre st = .ok stm) : stm.vendors ≠ [] := by
  induction pre generalizing st with
  | nil => simp at hv
  | cons l ls ih =>
    simp only [parseAux] at h
    cases hp : processLine false true l st with
    | error e => rw [hp] at h; cases h
    | ok o =>
      cases o with
      | none => exact (processLine_noC_no_break (hnoC l (List.mem_cons_self l ls)) hp).elim
      | some st1 =>
        rw [hp] at h
        rcases hv with ⟨m, hm, hmv⟩
        rcases List.mem_cons.mp hm with rfl | hm'
        · rcases isVendorStart_shape hmv with ⟨c, t, rfl, hc1, hc2⟩
          exact parseAux_vendors_ne_nil h (processLine_vendorStart_vendors hp hc1 hc2 hin)
        · exact ih (fun m' hm'' => hnoC m' (List.mem_cons_of_mem l hm'')) ⟨m, hm', hmv⟩
            (processLine_not_C_inClass (hnoC l (List.mem_cons_self l ls)) hin hp) h

theorem map_finalFlush_ok {r : Except PErr PState} {p : PciIds}
    (h : r.map finalFlush = .ok p) : ∃ st, r = .ok st ∧ p = finalFlush st := by
  cases r with
  | error e => simp [Except.map] at h
  | ok st =>
    refine ⟨st, rfl, ?_⟩
    simp only [Except.map, Except.ok.injEq] at h
    exact h.symm

theorem processLine_noSeparator {sv sc : Bool} {l : Str} {st : PState}
    (hHash : startsWithHash l = false) (hne : l ≠ []) (hsplit : splitTwoSpace l = none) :
    processLine sv sc l st = .error .panicNoSeparator := by
  cases l with
  | nil => exact absurd rfl hne
  | cons c t => simp [processLine, hsplit, hHash]

/-! ### The claims -/

/-- **C1 counterexample.**  The claim asserts that the name stored in the
Catalog for class `0x0c` is the literal line text "Serial bus controller".
In the code, `Class` stores no name at all: `Class::new` keeps only the
`DeviceClass` enum value and discards the line's name field, and the only
name obtainable for the class is the fixed `Display` table's
"Serial Bus Controller", which differs from the line text.  (The subclass
and interface names *are* stored literally, as the `.ok` catalog shows.) -/
theorem c1_counterexample :
    parsePciIdList
      [("C 0c  Serial bus controller").data,
       ("\t03  USB controller").data,
       ("\t\tfe  USB Device").data] =
      .ok {
        vendors := [],
        classes := [{
          cls := DeviceClass.SerialBusController,
          subclasses := [{
            id := 0x03,
            name := ("USB controller").data,
            interfaces := [{ id := 0xfe, name := ("USB Device").data }] }] }] } ∧
    DeviceClass.display DeviceClass.SerialBusController ≠ ("Serial bus controller").data := by
  constructor
  · rfl
  · decide

/-- **C1 (amended).**  For a well-formed class section with class line
`C 0c`, subclass line `03`, interface line `fe`: the *subclass* and
*interface* names stored in the Catalog are exactly the trimmed literal
text after the double-space separator of their lines; the *class* name
from its line is discarded entirely (the result is independent of `nmC`),
the class being stored only as the `DeviceClass` enum value. -/
theorem c1_names_from_lines (nmC nmS nmI : Str) :
    parsePciIdList
      ['C' :: ' ' :: '0' :: 'c' :: ' ' :: ' ' :: nmC,
       '\t' :: '0' :: '3' :: ' ' :: ' ' :: nmS,
       '\t' :: '\t' :: 'f' :: 'e' :: ' ' :: ' ' :: nmI] =
      .ok {
        vendors := [],
        classes := [{
          cls := DeviceClass.SerialBusController,
          subclasses := [{
            id := 0x03,
            name := trim nmS,
            interfaces := [{ id := 0xfe, name := trim nmI }] }] }] } := by
  have h1 : processLine false false ('C' :: ' ' :: '0' :: 'c' :: ' ' :: ' ' :: nmC)
      ⟨[], [], [], [], [], [], false⟩ =
      .ok (some ⟨[], [⟨DeviceClass.SerialBusController, []⟩], [], [], [], [], true⟩) :=
    processLine_classLine false ['0', 'c'] nmC ⟨[], [], [], [], [], [], false⟩ 12
      ⟨DeviceClass.SerialBusController, []⟩ (by decide) (by decide) rfl rfl
  have h2 : processLine false false ('\t' :: '0' :: '3' :: ' ' :: ' ' :: nmS)
      ⟨[], [⟨DeviceClass.SerialBusController, []⟩], [], [], [], [], true⟩ =
      .ok (some ⟨[], [⟨DeviceClass.SerialBusController, []⟩], [], [],
        [⟨3, trim nmS, []⟩], [], true⟩) :=
    processLine_subclassLine false '0' ['3'] nmS
      ⟨[], [⟨DeviceClass.SerialBusController, []⟩], [], [], [], [], true⟩ 3
      (by decide) (by decide) rfl rfl
  have h3 : processLine false false ('\t' :: '\t' :: 'f' :: 'e' :: ' ' :: ' ' :: nmI)
      ⟨[], [⟨DeviceClass.SerialBusController, []⟩], [], [], [⟨3, trim nmS, []⟩], [], true⟩ =
      .ok (some ⟨[], [⟨DeviceClass.SerialBusController, []⟩], [], [],
        [⟨3, trim nmS, []⟩], [⟨254, trim nmI⟩], true⟩) :=
    processLine_ifaceLine false ['f', 'e'] nmI
      ⟨[], [⟨DeviceClass.SerialBusController, []⟩], [], [], [⟨3, trim nmS, []⟩], [], true⟩ 254
      (by decide) rfl rfl
  have h4 : parseAux false false
      ['C' :: ' ' :: '0' :: 'c' :: ' ' :: ' ' :: nmC,
       '\t' :: '0' :: '3' :: ' ' :: ' ' :: nmS,
       '\t' :: '\t' :: 'f' :: 'e' :: ' ' :: ' ' :: nmI] ⟨[], [], [], [], [], [], false⟩ =
      .ok ⟨[], [⟨DeviceClass.SerialBusController, []⟩], [], [],
        [⟨3, trim nmS, []⟩], [⟨254, trim nmI⟩], true⟩ := by
    simp only [parseAux, h1, h2, h3]
  unfold parsePciIdList parseLines
  rw [show initState (⟨[], []⟩ : PciIds) = (⟨[], [], [], [], [], [], false⟩ : PState) from rfl, h4]
  rfl

/-- **C2 counterexample.**  The claim says *every* input containing a
non-comment, non-empty line whose id field is not valid hex for its width
makes the parse fail.  But the branch chain of `parse_lines` only reaches
an id decode when the line's *first character* selects a branch: a
vendor-section depth-0 line starting with a non-hex character (here
`"zz  Bogus vendor"`, id field `"zz"`, not valid 16-bit hex) matches no
branch, is silently dropped, and the parse *succeeds* — returning a
catalog that even holds the vendor `0x0e11` parsed before the bad line. -/
theorem c2_counterexample :
    parsePciIdList
      [("0e11  Compaq Computer Corporation").data,
       ("zz  Bogus vendor").data] =
      .ok {
        vendors := [{ id := 0x0e11, name := ("Compaq Computer Corporation").data, devices := [] }],
        classes := [] } ∧
    fromStrRadix 16 (trim (("zz").data)) = none := ⟨rfl, rfl⟩

/-- **C2 (amended).**  The fatal-failure guarantee holds exactly for the
lines on which the classifier actually invokes the hex decoder: if the
scan reaches (after a well-parsed prefix) a line whose processing yields
the `ParseIntError` condition — an id field that `fromStrRadix` rejects
(invalid digit or width overflow) inside the branch the line was routed
to — then the whole parse entry point yields exactly the invalid-integer
failure and no catalog: nothing parsed before the bad line is returned.
(A line with an invalid id field that matches no branch, such as a
vendor-section line with a non-hex first character, is silently skipped
instead; see the counterexample.) -/
theorem c2_invalid_hex_fatal (pre : List Str) (l : Str) (post : List Str) (st : PState)
    (hpre : parseAux false false pre (initState ⟨[], []⟩) = .ok st)
    (hl : processLine false false l st = .error .invalidInt) :
    parsePciIdList (pre ++ l :: post) = .error .invalidInt := by
  unfold parsePciIdList parseLines
  rw [parseAux_append hpre, parseAux_error_cons hl]
  rfl

/-- **C2 witness**: a vendor id of five hex digits overflows the 16-bit
width and aborts the whole parse. -/
theorem c2_witness :
    parsePciIdList
      [("0e11  Compaq Computer Corporation").data,
       ("12345  Sixteen bit overflow").data,
       ("0e12  Never parsed").data] = .error .invalidInt :=
  c2_invalid_hex_fatal [("0e11  Compaq Computer Corporation").data] _
    [("0e12  Never parsed").data] _ rfl rfl

/-- **C3 counterexample.**  A non-comment line with no double-space
separator does abort the parse, but through the `unwrap` panic on
`split_once("  ")` (`panicNoSeparator`), which is not a reported
error value: `parse_lines`' return type `Result<(), ParseIntError>` can
only report the invalid-integer condition, so the claimed "malformed-line
error condition ... a reported failure" does not exist in the code. -/
theorem c3_counterexample :
    parsePciIdList [("0123 single spaced name").data] = .error .panicNoSeparator ∧
    PErr.isReported .panicNoSeparator = false := ⟨rfl, rfl⟩

/-- **C3 (amended).**  A non-comment, non-empty line with no occurrence of
two consecutive spaces makes the parse abort with the missing-separator
panic — an outcome distinguishable from the invalid-integer condition but
a panic (`unwrap` of `None`), not a reported error. -/
theorem c3_no_separator_aborts (pre : List Str) (l : Str) (post : List Str) (st : PState)
    (hpre : parseAux false false pre (initState ⟨[], []⟩) = .ok st)
    (hHash : startsWithHash l = false) (hne : l ≠ [])
    (hsplit : splitTwoSpace l = none) :
    parsePciIdList (pre ++ l :: post) = .error .panicNoSeparator ∧
    PErr.isReported .panicNoSeparator = false := by
  refine ⟨?_, rfl⟩
  unfold parsePciIdList parseLines
  rw [parseAux_append hpre, parseAux_error_cons (processLine_noSeparator hHash hne hsplit)]
  rfl

/-- **C3 witness.** -/
theorem c3_witness :
    parsePciIdList [("0e11 Compaq Computer Corporation").data] = .error .panicNoSeparator ∧
    PErr.isReported .panicNoSeparator = false :=
  c3_no_separator_aborts [] (("0e11 Compaq Computer Corporation").data) [] _
    rfl rfl (by decide) rfl

/-- **C4 (confirmed).**  After the scan completes, the final bottom-up
flush attaches the still-open `subdevices` to the last `Device`, the
still-open `devices` to the last `Vendor`, the still-open `interfaces` to
the last `SubClass` and the still-open `subclasses` to the last
`DeviceClass`, so the deepest final branch of the file appears in the
returned catalog. -/
theorem c4_final_flush (input : List Str) (st : PState)
    (vs : List Vendor) (v : Vendor) (ds : List Device) (d : Device)
    (cs : List Class) (c : Class) (ss : List SubClass) (sub : SubClass)
    (h : parseAux false false input (initState ⟨[], []⟩) = .ok st)
    (hv : st.vendors = vs ++ [v]) (hd : st.devices = ds ++ [d])
    (hc : st.classes = cs ++ [c]) (hs : st.subclasses = ss ++ [sub]) :
    parsePciIdList input = .ok {
      vendors := vs ++ [{ v with devices := ds ++ [{ d with subdevices := st.subdevices }] }],
      classes := cs ++ [{ c with subclasses := ss ++ [{ sub with interfaces := st.interfaces }] }] } := by
  unfold parsePciIdList parseLines
  rw [h]
  show Except.ok (finalFlush st) = _
  simp only [finalFlush, hv, hd, hc, hs, modifyLast_concat]

/-- **C4 witness**: a file whose last lines are a nested class branch (and
whose vendor section also ends open) keeps the deepest branch. -/
theorem c4_witness :
    parsePciIdList
      [("0e11  Compaq Computer Corporation").data,
       ("\t0046  Smart Array 64xx").data,
       ("\t\t0e11 409d  Smart Array 6400 EM").data,
       ("C 0c  Serial bus controller").data,
       ("\t03  USB controller").data,
       ("\t\tfe  USB Device").data] =
      .ok {
        vendors := [{
          id := 0x0e11,
          name := ("Compaq Computer Corporation").data,
          devices := [{
            id := 0x0046,
            name := ("Smart Array 64xx").data,
            subdevices := [{
              subvendor_id := 0x0e11,
              subdevice_id := 0x409d,
              name := ("Smart Array 6400 EM").data }] }] }],
        classes := [{
          cls := DeviceClass.SerialBusController,
          subclasses := [{
            id := 0x03,
            name := ("USB controller").data,
            interfaces := [{ id := 0xfe, name := ("USB Device").data }] }] }] } := by
  refine c4_final_flush _
    ⟨[⟨0x0e11, ("Compaq Computer Corporation").data, []⟩],
     [⟨DeviceClass.SerialBusController, []⟩],
     [⟨0x0046, ("Smart Array 64xx").data, []⟩],
     [⟨0x0e11, 0x409d, ("Smart Array 6400 EM").data⟩],
     [⟨0x03, ("USB controller").data, []⟩],
     [⟨0xfe, ("USB Device").data⟩], true⟩
    [] _ [] _ [] _ [] _ ?_ rfl rfl rfl rfl
  rfl

/-- **C7 (confirmed).**  A vendor-section two-tab line splits its id field
at the first single space into two hex numbers — subvendor id first,
subdevice id second — and the new `SubDevice` carries the trimmed text
after the double-space separator as its name. -/
theorem c7_subdevice_line (sc : Bool) (a b nm : Str) (st : PState) (n1 n2 : Nat)
    (ha : ∀ x ∈ a, isHexDigitCh x = true)
    (hb : ∀ x ∈ b, isHexDigitCh x = true) (hb0 : b ≠ [])
    (hin : st.inClass = false)
    (hn1 : fromStrRadix 16 a = some n1) (hn2 : fromStrRadix 16 b = some n2) :
    processLine false sc ('\t' :: '\t' :: (a ++ ' ' :: (b ++ ' ' :: ' ' :: nm))) st =
      .ok (some { st with
        subdevices := st.subdevices
          ++ [{ subvendor_id := n1, subdevice_id := n2, name := trim nm }] }) :=
  processLine_subdevLine sc a b nm st n1 n2 ha hb hb0 hin hn1 hn2

/-- **C7 witness**: under vendor `0x0e11`, device `0x0046`, the subdevice
line for the pair `(0x0e11, 0x409d)` stores the literal name
"Smart Array 6400 EM". -/
theorem c7_witness :
    processLine false false (("\t\t0e11 409d  Smart Array 6400 EM").data)
      {
        vendors := [{ id := 0x0e11, name := ("Compaq Computer Corporation").data, devices := [] }],
        classes := [],
        devices := [{ id := 0x0046, name := ("Smart Array 64xx").data, subdevices := [] }],
        subdevices := [], subclasses := [], interfaces := [], inClass := false } =
      .ok (some {
        vendors := [{ id := 0x0e11, name := ("Compaq Computer Corporation").data, devices := [] }],
        classes := [],
        devices := [{ id := 0x0046, name := ("Smart Array 64xx").data, subdevices := [] }],
        subdevices := [{ subvendor_id := 0x0e11, subdevice_id := 0x409d, name := ("Smart Array 6400 EM").data }],
        subclasses := [], interfaces := [], inClass := false }) := by
  exact c7_subdevice_line false (("0e11").data) (("409d").data)
    (("Smart Array 6400 EM").data) _ 0x0e11 0x409d
    (by decide) (by decide) (by decide) rfl rfl rfl

/-- **C8 counterexample.**  The claim says a line consisting only of spaces
is skipped and cannot cause a failure; in the code the skip test is
`starts_with('#') || is_empty()`, so the one-space line is classified,
reaches `split_once("  ").unwrap()`, and the whole parse aborts. -/
theorem c8_counterexample :
    parsePciIdList [(" ").data] = .error .panicNoSeparator := rfl

/-- **C8 (amended).**  A line whose first character is `#`, or which is
exactly empty, is skipped: processing it leaves the whole parse state
unchanged and cannot fail.  (Whitespace-only non-empty lines are *not*
skipped.) -/
theorem c8_skip_comment_and_empty (skipVendors skipClasses : Bool) (l : Str) (st : PState)
    (h : startsWithHash l = true ∨ l = []) :
    processLine skipVendors skipClasses l st = .ok (some st) := by
  unfold processLine
  rw [if_pos h]

/-- **C8 witness.** -/
theorem c8_witness :
    processLine false false (("# List of known device classes").data)
      (initState ⟨[], []⟩) = .ok (some (initState ⟨[], []⟩)) :=
  c8_skip_comment_and_empty false false (("# List of known device classes").data)
    (initState ⟨[], []⟩) (Or.inl rfl)

set_option maxRecDepth 4096 in
/-- **C9 (confirmed).**  `Class::new(id)` succeeds exactly for the 22
bytes enumerated in `DeviceClass` (`0x00`–`0x13`, `0x40`, `0xff`); for any
other byte its internal `unwrap` of `DeviceClass::try_from` panics, and
that branch is reachable from the public parse interface: a class line
with the unlisted id `0x14` aborts the parse instead of building a
catalog. -/
theorem c9_class_new_domain :
    (∀ b : Nat, b < 256 →
      ((Class.new b).isSome = true ↔ (b ≤ 0x13 ∨ b = 0x40 ∨ b = 0xff))) ∧
    parsePciIdList [("C 14  Unlisted class").data] = .error .panicBadClassByte := by
  constructor
  · decide
  · rfl

/-- **C9 witness**: byte `0x14` is outside the enumeration, so
`Class::new` fails on it. -/
theorem c9_witness :
    (Class.new 0x14).isSome = true ↔
      ((0x14 : Nat) ≤ 0x13 ∨ (0x14 : Nat) = 0x40 ∨ (0x14 : Nat) = 0xff) :=
  c9_class_new_domain.1 0x14 (by decide)

set_option maxRecDepth 4096 in
/-- **C10 (confirmed).**  `DeviceClass::try_from` and `u8::from` are
mutually inverse on their domains: every byte accepted by `try_from` maps
back to itself through `u8::from`, and every `DeviceClass` value
round-trips through its byte. -/
theorem c10_tryFrom_toByte_roundtrip :
    (∀ b : Nat, b < 256 → ∀ c : DeviceClass, DeviceClass.tryFrom b = some c →
      DeviceClass.toByte c = b) ∧
    (∀ c : DeviceClass, DeviceClass.tryFrom (DeviceClass.toByte c) = some c) := by
  constructor
  · decide
  · decide

/-- **C10 witness.** -/
theorem c10_witness : DeviceClass.toByte DeviceClass.SerialBusController = 0x0c :=
  c10_tryFrom_toByte_roundtrip.1 0x0c (by decide) DeviceClass.SerialBusController rfl

theorem startsWithHash_not_C {l : Str} (h : startsWithHash l = true) :
    startsWithC l = false := by
  cases l with
  | nil => simp [startsWithHash] at h
  | cons a t =>
    simp only [startsWithHash, decide_eq_true_eq] at h
    simp [startsWithC, h]

/-- **C5 counterexample.**  The claim places the vendor→class transition at
the first line whose first *non-whitespace* character is `C` followed by a
space.  The code tests the line's first character only: a line
`"\tC 0c  …"` satisfies the claim's trigger, yet the code keeps it under
vendor-section rules (a one-tab device line), tries to hex-decode the id
field `"C 0c"`, and aborts with the invalid-integer error — no transition
and no class-section interpretation occur. -/
theorem c5_counterexample :
    specClassTransitionLine (("\tC 0c  Serial bus controller").data) = true ∧
    parsePciIdList [("\tC 0c  Serial bus controller").data] = .error .invalidInt :=
  ⟨rfl, rfl⟩

/-- **C5 (amended).**  Per processed line: (a) once `in_class_section` is
true it stays true and no Vendor, Device or SubDevice is ever created
again (those lists are untouched); (b) from the vendor section, a
successfully processed line flips `in_class_section` to true exactly when
its *first character* is the literal `C` — regardless of any following
space, and a tab-indented `C` line does not trigger the transition. -/
theorem c5_one_way_transition (skipVendors skipClasses : Bool) (l : Str) (st st' : PState)
    (h : processLine skipVendors skipClasses l st = .ok (some st')) :
    (st.inClass = true →
      st'.inClass = true ∧ st'.vendors = st.vendors ∧ st'.devices = st.devices ∧
      st'.subdevices = st.subdevices) ∧
    (st.inClass = false → (st'.inClass = true ↔ startsWithC l = true)) := by
  unfold processLine at h
  repeat' split at h
  all_goals cases h
  all_goals constructor
  all_goals intro hin
  all_goals simp_all [startsWithC_headC, startsWithC_head, startsWithHash_not_C,
    show ('\t' : Char) ≠ 'C' from by decide]
  rename_i hcomment
  rcases hcomment with hc | hc
  · exact startsWithHash_not_C hc
  · subst hc
    rfl

/-- **C5 witness**: processing the class line `C 0c` from the initial
(vendor-section) state flips the section flag. -/
theorem c5_witness :
    (((initState ⟨[], []⟩).inClass = true →
      ((⟨[], [⟨DeviceClass.SerialBusController, []⟩], [], [], [], [], true⟩ : PState).inClass = true ∧
       (⟨[], [⟨DeviceClass.SerialBusController, []⟩], [], [], [], [], true⟩ : PState).vendors =
         (initState ⟨[], []⟩).vendors ∧
       (⟨[], [⟨DeviceClass.SerialBusController, []⟩], [], [], [], [], true⟩ : PState).devices =
         (initState ⟨[], []⟩).devices ∧
       (⟨[], [⟨DeviceClass.SerialBusController, []⟩], [], [], [], [], true⟩ : PState).subdevices =
         (initState ⟨[], []⟩).subdevices)) ∧
     ((initState ⟨[], []⟩).inClass = false →
      ((⟨[], [⟨DeviceClass.SerialBusController, []⟩], [], [], [], [], true⟩ : PState).inClass = true ↔
        startsWithC (("C 0c  Serial bus controller").data) = true))) :=
  c5_one_way_transition false false (("C 0c  Serial bus controller").data)
    (initState ⟨[], []⟩)
    ⟨[], [⟨DeviceClass.SerialBusController, []⟩], [], [], [], [], true⟩ rfl

/-- **C6 (confirmed).**  On an input holding both sections: parsing with
the skip-vendor flag yields an empty vendor list and a non-empty class
list; parsing with the skip-class flag yields the inverse (the class-line
check uses that the vendor-section lines precede the first `C` line, since
the skip-class parse `break`s there). -/
theorem c6_skip_flags (input : List Str) (p : PciIds) :
    (parseLines input true false ⟨[], []⟩ = .ok p →
      (∃ l ∈ input, startsWithC l = true) →
      p.vendors = [] ∧ p.classes ≠ []) ∧
    (∀ pre suf, input = pre ++ suf →
      (∀ l ∈ pre, startsWithC l = false) →
      (∃ l ∈ pre, isVendorStart l = true) →
      parseLines input false true ⟨[], []⟩ = .ok p →
      p.vendors ≠ [] ∧ p.classes = []) := by
  constructor
  · intro h hC
    rcases map_finalFlush_ok h with ⟨st, hst, rfl⟩
    constructor
    · have hv := parseAux_skipV_vendors hst
      simp [finalFlush, hv, initState, modifyLast]
    · have hcne := parseAux_C_classes hst hC
      simp only [finalFlush]
      exact modifyLast_ne_nil _ hcne
  · intro pre suf hsplit hnoC hv h
    subst hsplit
    rcases map_finalFlush_ok h with ⟨st, hst, rfl⟩
    rcases @parseAux_append_noC false pre suf (initState ⟨[], []⟩) hnoC with
      ⟨stm, hm1, hm2⟩ | ⟨e, he1, he2⟩
    · rw [hm2] at hst
      have hvne : stm.vendors ≠ [] := parseAux_vendor_push hnoC hv rfl hm1
      have hv' : st.vendors ≠ [] := parseAux_vendors_ne_nil hst hvne
      have hcl : st.classes = [] := by
        rw [parseAux_skipC_classes hst, parseAux_skipC_classes hm1]
        rfl
      constructor
      · simp only [finalFlush]
        exact modifyLast_ne_nil _ hv'
      · simp [finalFlush, hcl, modifyLast]
    · rw [he2] at hst
      cases hst

/-- **C6 witness**: on a two-line input with one vendor line and one class
line, the skip-vendor parse returns only the class and the skip-class
parse returns only the vendor. -/
theorem c6_witness :
    (((⟨[], [⟨DeviceClass.SerialBusController, []⟩]⟩ : PciIds).vendors = [] ∧
      (⟨[], [⟨DeviceClass.SerialBusController, []⟩]⟩ : PciIds).classes ≠ []) ∧
     ((⟨[⟨0x0e11, ("Compaq Computer Corporation").data, []⟩], []⟩ : PciIds).vendors ≠ [] ∧
      (⟨[⟨0x0e11, ("Compaq Computer Corporation").data, []⟩], []⟩ : PciIds).classes = [])) := by
  constructor
  · exact (c6_skip_flags
        [("0e11  Compaq Computer Corporation").data, ("C 0c  Serial bus controller").data]
        ⟨[], [⟨DeviceClass.SerialBusController, []⟩]⟩).1 rfl
      ⟨("C 0c  Serial bus controller").data, by simp, rfl⟩
  · exact (c6_skip_flags
        [("0e11  Compaq Computer Corporation").data, ("C 0c  Serial bus controller").data]
        ⟨[⟨0x0e11, ("Compaq Computer Corporation").data, []⟩], []⟩).2
      [("0e11  Compaq Computer Corporation").data] [("C 0c  Serial bus controller").data] rfl
      (by intro l hl; simp at hl; subst hl; rfl)
      ⟨("0e11  Compaq Computer Corporation").data, by simp, rfl⟩ rfl

end PciId
